import Mathlib

/-!
# velero-csi-plugin: PVC restore rewrite and snapshot helper utilities

A shallow embedding of `internal/restore/csi_restorer.go` and `internal/util/util.go`.

* Go values that may be `nil` (pointers, maps, slices, errors) are `Option`s.
* A Go `map[string]string` is an association list with pairwise distinct keys; the order of
  the entries stands for the (unspecified) iteration order of the map, so a statement about
  every map is a statement about every iteration order.
* Calls to the API server are answered from a scripted sequence of responses; the calls made
  and the sleeps taken are recorded in a trace.
* Loops without a bound (`for { ... }`) take a fuel argument; running out of fuel is the
  result `none`, which is different from every result the Go function can return.
* Logging has no effect on any returned value and is left out.
-/

namespace VeleroCSI

/-! ## Go maps -/

/-- A non-nil Go `map[string]string`. -/
structure StringMap where
  entries : List (String × String)
  nodup : (entries.map Prod.fst).Nodup

namespace StringMap

instance : DecidableEq StringMap := fun a b =>
  if h : a.entries = b.entries then isTrue (by cases a; cases b; cases h; rfl)
  else isFalse (fun hab => h (congrArg StringMap.entries hab))

/-- Go `make(map[string]string)`. -/
def empty : StringMap := ⟨[], List.nodup_nil⟩

/-- The keys in iteration order. -/
def keys (m : StringMap) : List String := m.entries.map Prod.fst

/-- The comma-ok index expression `v, ok := m[k]`. -/
def lookup (m : StringMap) (k : String) : Option String :=
  (m.entries.find? (fun e => e.1 == k)).map Prod.snd

/-- The builtin `delete(m, k)`. -/
def delete (m : StringMap) (k : String) : StringMap :=
  ⟨m.entries.filter (fun e => !(e.1 == k)),
    m.nodup.sublist ((List.filter_sublist m.entries).map Prod.fst)⟩

end StringMap

/-- Index expression `m[k]` on a possibly nil map: the zero value `""` when the key is absent. -/
def index (m : Option StringMap) (k : String) : String :=
  match m with
  | none => ""
  | some m => (m.lookup k).getD ""

/-- Comma-ok index expression `v, ok := m[k]` on a possibly nil map. -/
def indexOk (m : Option StringMap) (k : String) : Option String :=
  match m with
  | none => none
  | some m => m.lookup k

/-! ## Errors -/

/-- A non-nil Go `error`, with the wrappers of `github.com/pkg/errors` used by the code. -/
inductive Error where
  | api (msg : String)
  | errorf (msg : String)
  | withStack (e : Error)
  | wrapf (e : Error) (msg : String)
  deriving DecidableEq

/-! ## API objects (the fields the code reads or writes, and representatives of the rest) -/

structure TypedLocalObjectReference where
  APIGroup : Option String
  Kind : String
  Name : String
  deriving DecidableEq

structure PersistentVolumeClaimSpec where
  AccessModes : List String
  StorageClassName : Option String
  VolumeMode : Option String
  VolumeName : String
  DataSource : Option TypedLocalObjectReference
  deriving DecidableEq

structure PersistentVolumeClaimStatus where
  Phase : String
  deriving DecidableEq

structure PersistentVolumeClaim where
  Namespace : String
  Name : String
  Labels : Option StringMap
  Annotations : Option StringMap
  Spec : PersistentVolumeClaimSpec
  Status : PersistentVolumeClaimStatus

/-- Constants of other packages that the code refers to: `velerov1api.BackupNameLabel`,
`util.VolumeSnapshotLabel` and `snapshotv1beta1api.SchemeGroupVersion.Group`. Their values are
not part of the two source files, so they are parameters. -/
structure Consts where
  BackupNameLabel : String
  VolumeSnapshotLabel : String
  SnapshotGroup : String

/-! ## `util.Contains` -/

/-- Go `func Contains(slice []string, key string) bool` -/
def Contains (slice : List String) (key : String) : Bool :=
  match slice with
  | [] => false
  | i :: rest => if i = key then true else Contains rest key

/-! ## `resetPVCAnnotations`, `resetPVCSpec` -/

/-- The loop `for k := range m { if !util.Contains(preserve, k) { delete(m, k) } }`: the keys are
visited in iteration order, and only the key being visited is deleted. -/
def deleteUnpreserved (preserve : List String) (m : StringMap) : StringMap :=
  m.keys.foldl (fun acc k => if !Contains preserve k then acc.delete k else acc) m

/-- Go `func resetPVCAnnotations(pvc *corev1api.PersistentVolumeClaim, preserve []string)`; the
result is the PVC after the call. -/
def resetPVCAnnotations (pvc : PersistentVolumeClaim) (preserve : List String) :
    PersistentVolumeClaim :=
  match pvc.Annotations with
  | none => { pvc with Annotations := some StringMap.empty }
  | some m => { pvc with Annotations := some (deleteUnpreserved preserve m) }

/-- Go `func resetPVCSpec(pvc *corev1api.PersistentVolumeClaim, vsName string)`; the result is the
PVC after the call. -/
def resetPVCSpec (c : Consts) (pvc : PersistentVolumeClaim) (vsName : String) :
    PersistentVolumeClaim :=
  { pvc with
    Spec := { pvc.Spec with
      VolumeName := ""
      DataSource := some
        { APIGroup := some c.SnapshotGroup, Kind := "VolumeSnapshot", Name := vsName } } }

/-! ## `CSIRestorer.Execute` -/

/-- The two directions of `runtime.DefaultUnstructuredConverter` at the PVC type, over a type
`U` of unstructured items. `FromUnstructured` fills a fresh typed object, so later changes to
the typed PVC do not reach the item it was read from. -/
structure UnstructuredConverter (U : Type) where
  FromUnstructured : U → Except Error PersistentVolumeClaim
  ToUnstructured : PersistentVolumeClaim → Except Error U

structure RestoreItemActionExecuteInput (U : Type) where
  Item : U

structure RestoreItemActionExecuteOutput (U : Type) where
  UpdatedItem : U

/-- Go `func (p *CSIRestorer) Execute(input) (*velero.RestoreItemActionExecuteOutput, error)`. -/
def Execute {U : Type} (c : Consts) (conv : UnstructuredConverter U)
    (input : RestoreItemActionExecuteInput U) :
    Except Error (RestoreItemActionExecuteOutput U) :=
  match conv.FromUnstructured input.Item with
  | .error err => .error (.withStack err)
  | .ok pvc =>
    let pvc := resetPVCAnnotations pvc [c.BackupNameLabel, c.VolumeSnapshotLabel]
    match indexOk pvc.Annotations c.VolumeSnapshotLabel with
    | none => .ok { UpdatedItem := input.Item }
    | some volumeSnapshotName =>
      let pvc := resetPVCSpec c pvc volumeSnapshotName
      match conv.ToUnstructured pvc with
      | .error err => .error (.withStack err)
      | .ok pvcMap => .ok { UpdatedItem := pvcMap }

/-! ## Pods and the helpers of `util.go` -/

structure PersistentVolumeClaimVolumeSource where
  ClaimName : String
  ReadOnly : Bool
  deriving DecidableEq

structure Volume where
  Name : String
  PersistentVolumeClaim : Option PersistentVolumeClaimVolumeSource
  deriving DecidableEq

structure PodSpec where
  Volumes : List Volume
  deriving DecidableEq

structure Pod where
  Namespace : String
  Name : String
  Annotations : Option StringMap
  Spec : PodSpec
  deriving DecidableEq

/-- Go `corev1client.PodsGetter`: the answer of `Pods(namespace).List(metav1.ListOptions{})`, the
items of the pod list or an error. -/
abbrev PodsGetter := String → Except Error (List Pod)

def resticPodAnnotation : String := "backup.velero.io/backup-volumes"

/-- The condition `v.PersistentVolumeClaim != nil && v.PersistentVolumeClaim.ClaimName == pvcName`. -/
def volumeUsesClaim (pvcName : String) (v : Volume) : Bool :=
  match v.PersistentVolumeClaim with
  | none => false
  | some src => src.ClaimName == pvcName

/-- The inner loop of `GetPodsUsingPVC` over the volumes of the pod `p`. -/
def appendPerVolume (pvcName : String) (p : Pod) (podsUsingPVC : List Pod) : List Volume → List Pod
  | [] => podsUsingPVC
  | v :: rest =>
    if volumeUsesClaim pvcName v then appendPerVolume pvcName p (podsUsingPVC ++ [p]) rest
    else appendPerVolume pvcName p podsUsingPVC rest

/-- The outer loop of `GetPodsUsingPVC` over `podList.Items`. -/
def appendPerPod (pvcName : String) (podsUsingPVC : List Pod) : List Pod → List Pod
  | [] => podsUsingPVC
  | p :: rest => appendPerPod pvcName (appendPerVolume pvcName p podsUsingPVC p.Spec.Volumes) rest

/-- Go `func GetPodsUsingPVC(pvcNamespace, pvcName string, corev1 corev1client.PodsGetter)
([]corev1api.Pod, error)`; a nil slice is `none`. -/
def GetPodsUsingPVC (pvcNamespace pvcName : String) (corev1 : PodsGetter) :
    Option (List Pod) × Option Error :=
  match corev1 pvcNamespace with
  | .error err => (none, some err)
  | .ok items => (some (appendPerPod pvcName [] items), none)

/-- The loop of `GetPodVolumeNameForPVC`; `notFound` is the error returned after the loop. -/
def firstVolumeName (pvcName : String) (notFound : Error) : List Volume → String × Option Error
  | [] => ("", some notFound)
  | v :: rest =>
    if volumeUsesClaim pvcName v then (v.Name, none) else firstVolumeName pvcName notFound rest

/-- Go `func GetPodVolumeNameForPVC(pod corev1api.Pod, pvcName string) (string, error)`. -/
def GetPodVolumeNameForPVC (pod : Pod) (pvcName : String) : String × Option Error :=
  firstVolumeName pvcName
    (.errorf ("Pod " ++ pod.Namespace ++ "/" ++ pod.Name ++ " does not use PVC "
      ++ pod.Namespace ++ "/" ++ pvcName))
    pod.Spec.Volumes

/-- The pieces of a character sequence between occurrences of `sep`. -/
def splitChars (sep : Char) : List Char → List (List Char)
  | [] => [[]]
  | ch :: rest =>
    if ch = sep then [] :: splitChars sep rest
    else
      match splitChars sep rest with
      | [] => [[ch]]
      | piece :: pieces => (ch :: piece) :: pieces

/-- Go `strings.Split(s, ",")` of the Go standard library: the substrings of `s` between commas
(`n` commas give `n + 1` substrings). -/
def stringsSplitComma (s : String) : List String :=
  (splitChars ',' s.data).map String.mk

/-- Go `func GetPodVolumesUsingRestic(pod corev1api.Pod) []string`. -/
def GetPodVolumesUsingRestic (pod : Pod) : List String :=
  let resticAnnotation := index pod.Annotations resticPodAnnotation
  if resticAnnotation = "" then []
  else stringsSplitComma (index pod.Annotations resticPodAnnotation)

/-- The loop `for _, p := range pods` of `IsPVCBackedUpByRestic`. -/
def resticLoop (pvcName : String) : List Pod → Bool × Option Error
  | [] => (false, none)
  | p :: rest =>
    let resticVols := GetPodVolumesUsingRestic p
    if resticVols.length > 0 then
      match GetPodVolumeNameForPVC p pvcName with
      | (_, some err) => (false, some err)
      | (volName, none) =>
        if Contains resticVols volName then (true, none) else resticLoop pvcName rest
    else resticLoop pvcName rest

/-- Go `func IsPVCBackedUpByRestic(pvcNamespace, pvcName string, podClient corev1client.PodsGetter)
(bool, error)`. -/
def IsPVCBackedUpByRestic (pvcNamespace pvcName : String) (podClient : PodsGetter) :
    Bool × Option Error :=
  match GetPodsUsingPVC pvcNamespace pvcName podClient with
  | (_, some err) => (false, some (.withStack err))
  | (pods, none) => resticLoop pvcName (pods.getD [])

/-! ## Volume snapshots and the polling loops of `util.go` -/

structure VolumeSnapshotStatus where
  BoundVolumeSnapshotContentName : Option String
  ReadyToUse : Option Bool
  deriving DecidableEq

structure VolumeSnapshot where
  Namespace : String
  Name : String
  Status : Option VolumeSnapshotStatus
  deriving DecidableEq

structure VolumeSnapshotContentStatus where
  SnapshotHandle : Option String
  deriving DecidableEq

structure VolumeSnapshotContent where
  Name : String
  Status : Option VolumeSnapshotContentStatus
  deriving DecidableEq

/-- The snapshot API as seen by the code: the response to the `i`-th call of
`VolumeSnapshots(ns).Get(name, ...)` and to the `i`-th call of
`VolumeSnapshotContents().Get(name, ...)`, counted from 0. -/
structure SnapshotClient where
  VolumeSnapshotsGet : Nat → Except Error VolumeSnapshot
  VolumeSnapshotContentsGet : Nat → Except Error VolumeSnapshotContent

/-- What the code does to the outside world. -/
inductive Call where
  | getVolumeSnapshot (ns name : String)
  | getVolumeSnapshotContent (name : String)
  | sleep (d : Nat)
  deriving DecidableEq

/-- The calls made so far, with the number of `Get`s of each kind. -/
structure World where
  snapshotGets : Nat
  contentGets : Nat
  trace : List Call
  deriving DecidableEq

def World.init : World := ⟨0, 0, []⟩

/-- Go `time.Second` in nanoseconds. -/
def Second : Nat := 1000000000

/-- The condition `vs.Status != nil && vs.Status.BoundVolumeSnapshotContentName != nil`. -/
def isReconciled (vs : VolumeSnapshot) : Bool :=
  match vs.Status with
  | none => false
  | some st => st.BoundVolumeSnapshotContentName.isSome

/-- The condition `snapshotContent.Status == nil || snapshotContent.Status.SnapshotHandle == nil`. -/
def lacksHandle (snapshotContent : VolumeSnapshotContent) : Bool :=
  match snapshotContent.Status with
  | none => true
  | some st => st.SnapshotHandle.isNone

/-- The world after `snapshotClient.VolumeSnapshots(ns).Get(name, metav1.GetOptions{})`. -/
def World.afterSnapshotGet (w : World) (ns name : String) : World :=
  { w with snapshotGets := w.snapshotGets + 1, trace := w.trace ++ [.getVolumeSnapshot ns name] }

/-- The world after `snapshotClient.VolumeSnapshotContents().Get(name, metav1.GetOptions{})`. -/
def World.afterContentGet (w : World) (name : String) : World :=
  { w with contentGets := w.contentGets + 1, trace := w.trace ++ [.getVolumeSnapshotContent name] }

/-- The world after `time.Sleep(d)`. -/
def World.afterSleep (w : World) (d : Nat) : World :=
  { w with trace := w.trace ++ [.sleep d] }

/-- Go `func WaitForVolumesnapshotReconcile(vs, log, snapshotClient, interval) error`. The `vs`
declared by `:=` inside the loop body (here `fetched`) shadows the parameter for the rest of the
body only: the arguments of every `Get` are those of the parameter, and the object the
parameter points to is never written. `none` is fuel exhaustion; `some (err, w)` is a return. -/
def WaitForVolumesnapshotReconcile (vs : VolumeSnapshot) (snapshotClient : SnapshotClient)
    (interval : Nat) : Nat → World → Option (Option Error × World)
  | 0, _ => none
  | fuel + 1, w =>
    let w1 := w.afterSnapshotGet vs.Namespace vs.Name
    match snapshotClient.VolumeSnapshotsGet w.snapshotGets with
    | .error err => some (some (.withStack err), w1)
    | .ok fetched =>
      if isReconciled fetched then some (none, w1)
      else WaitForVolumesnapshotReconcile vs snapshotClient interval fuel (w1.afterSleep interval)

/-- How a call of a Go function ends: it returns, or it panics at a nil pointer dereference. -/
inductive Outcome (α : Type) where
  | returned (a : α)
  | panicked
  deriving DecidableEq

/-- Go `func GetVolumeSnapshotContentForVolumeSnapshot(volSnap, snapshotClient, log)
(*snapshotv1beta1api.VolumeSnapshotContent, error)`. The expression
`*volSnap.Status.BoundVolumeSnapshotContentName` reads the object passed in. -/
def GetVolumeSnapshotContentForVolumeSnapshot (volSnap : VolumeSnapshot)
    (snapshotClient : SnapshotClient) :
    Nat → World → Option (Outcome (Option VolumeSnapshotContent × Option Error) × World)
  | 0, _ => none
  | fuel + 1, w =>
    match WaitForVolumesnapshotReconcile volSnap snapshotClient (5 * Second) (fuel + 1) w with
    | none => none
    | some (some err, w1) => some (.returned (none, some (.withStack err)), w1)
    | some (none, w1) =>
      match volSnap.Status with
      | none => some (.panicked, w1)
      | some st =>
        match st.BoundVolumeSnapshotContentName with
        | none => some (.panicked, w1)
        | some contentName =>
          let w2 := w1.afterContentGet contentName
          match snapshotClient.VolumeSnapshotContentsGet w1.contentGets with
          | .error err =>
            some (.returned (none, some (.wrapf err
              ("failed to get volumesnapshotcontent " ++ contentName ++ " for volumesnapshot "
                ++ volSnap.Namespace ++ "/" ++ volSnap.Name))), w2)
          | .ok snapshotContent =>
            if lacksHandle snapshotContent then
              GetVolumeSnapshotContentForVolumeSnapshot volSnap snapshotClient fuel
                (w2.afterSleep (5 * Second))
            else some (.returned (some snapshotContent, none), w2)

/-! ## Trace shapes used in the statements -/

/-- The calls of `k` unsuccessful polling rounds of `WaitForVolumesnapshotReconcile`: a `Get`
for `ns/name` followed by a sleep of `interval`, `k` times. -/
def pollTrace (ns name : String) (interval : Nat) : Nat → List Call
  | 0 => []
  | k + 1 => [.getVolumeSnapshot ns name, .sleep interval] ++ pollTrace ns name interval k

/-- The calls of `j` rounds of `GetVolumeSnapshotContentForVolumeSnapshot` in each of which the
snapshot is found reconciled by the first `Get` and the content has no handle yet. -/
def contentPollTrace (ns name contentName : String) : Nat → List Call
  | 0 => []
  | j + 1 =>
    [.getVolumeSnapshot ns name, .getVolumeSnapshotContent contentName, .sleep (5 * Second)]
      ++ contentPollTrace ns name contentName j

/-! ## Concrete objects for the instances below -/

def exampleConsts : Consts :=
  { BackupNameLabel := "velero.io/backup-name"
    VolumeSnapshotLabel := "velero.io/volume-snapshot-name"
    SnapshotGroup := "snapshot.storage.k8s.io" }

/-- The converter over typed PVCs themselves, which loses nothing. -/
def identityConverter : UnstructuredConverter PersistentVolumeClaim :=
  { FromUnstructured := fun u => .ok u, ToUnstructured := fun p => .ok p }

def examplePVC (annotations : Option StringMap) : PersistentVolumeClaim :=
  { Namespace := "ns", Name := "data", Labels := none, Annotations := annotations
    Spec := { AccessModes := ["ReadWriteOnce"], StorageClassName := some "fast", VolumeMode := none
              VolumeName := "pv-1", DataSource := none }
    Status := { Phase := "Bound" } }

def annotationsWithoutSnapshot : StringMap :=
  ⟨[("velero.io/backup-name", "b1"), ("pv.kubernetes.io/bind-completed", "yes")], by decide⟩

def annotationsWithSnapshot : StringMap :=
  ⟨[("pv.kubernetes.io/bind-completed", "yes"), ("velero.io/volume-snapshot-name", "snap-1"),
    ("velero.io/backup-name", "b1")], by decide⟩

def exampleSnapshot (status : Option VolumeSnapshotStatus) : VolumeSnapshot :=
  { Namespace := "ns", Name := "snap", Status := status }

def boundStatus : VolumeSnapshotStatus :=
  { BoundVolumeSnapshotContentName := some "content-1", ReadyToUse := some true }

def exampleContent (status : Option VolumeSnapshotContentStatus) : VolumeSnapshotContent :=
  { Name := "content-1", Status := status }

/-- A server on which the snapshot is bound from the third `Get` on, and the content has its
handle from the second `Get` on. -/
def slowClient : SnapshotClient :=
  { VolumeSnapshotsGet := fun i =>
      if i < 2 then .ok (exampleSnapshot none) else .ok (exampleSnapshot (some boundStatus))
    VolumeSnapshotContentsGet := fun i =>
      if i < 1 then .ok (exampleContent (some ⟨none⟩))
      else .ok (exampleContent (some ⟨some "handle-1"⟩)) }

/-- A server on which the snapshot is bound and the content gets its handle at the second
`Get`. -/
def promptClient : SnapshotClient :=
  { VolumeSnapshotsGet := fun _ => .ok (exampleSnapshot (some boundStatus))
    VolumeSnapshotContentsGet := fun i =>
      if i < 1 then .ok (exampleContent none)
      else .ok (exampleContent (some ⟨some "handle-1"⟩)) }

def claimVolume (volumeName claimName : String) : Volume :=
  { Name := volumeName, PersistentVolumeClaim := some { ClaimName := claimName, ReadOnly := false } }

/-- A pod that mounts the claim "data" through two volumes, "a" and "b", and asks restic to
back up the volume "b". -/
def podWithTwoVolumes : Pod :=
  { Namespace := "ns", Name := "web"
    Annotations := some ⟨[("backup.velero.io/backup-volumes", "b")], by decide⟩
    Spec := { Volumes := [claimVolume "a" "data", claimVolume "b" "data"] } }

/-- A pod that mounts the claim "data" through the volume "a" and asks restic to back up "a". -/
def podWithOneVolume : Pod :=
  { Namespace := "ns", Name := "db"
    Annotations := some ⟨[("backup.velero.io/backup-volumes", "logs,a")], by decide⟩
    Spec := { Volumes := [{ Name := "logs", PersistentVolumeClaim := none },
                          claimVolume "a" "data"] } }

def listTwoVolumes : PodsGetter := fun _ => .ok [podWithTwoVolumes]

def listOneVolume : PodsGetter := fun _ => .ok [podWithOneVolume]

def listFails : PodsGetter := fun _ => .error (.api "pods is forbidden")

/-! ## Helper lemmas on maps -/

theorem Contains_iff (slice : List String) (key : String) :
    Contains slice key = true ↔ key ∈ slice := by
  induction slice with
  | nil => simp [Contains]
  | cons i rest ih =>
    unfold Contains
    by_cases h : i = key
    · simp [h]
    · simp [h, ih, Ne.symm h]

theorem Contains_eq_decide (slice : List String) (key : String) :
    Contains slice key = decide (key ∈ slice) := by
  by_cases h : key ∈ slice
  · simp [h, (Contains_iff slice key).2 h]
  · have : Contains slice key ≠ true := fun hc => h ((Contains_iff slice key).1 hc)
    simp [h, this]

theorem foldl_delete_entries (preserve : List String) (ks : List String) (acc : StringMap) :
    (ks.foldl (fun acc k => if !Contains preserve k then acc.delete k else acc) acc).entries
      = acc.entries.filter (fun e => decide (e.1 ∉ ks) || Contains preserve e.1) := by
  induction ks generalizing acc with
  | nil => simp
  | cons k ks ih =>
    rw [List.foldl_cons, ih]
    by_cases hk : Contains preserve k = true
    · simp only [hk, Bool.not_true, Bool.false_eq_true, if_false]
      apply List.filter_congr
      intro e _
      by_cases he : e.1 = k
      · simp [he, hk]
      · simp [he]
    · simp only [hk, Bool.not_false, if_true, StringMap.delete, List.filter_filter]
      apply List.filter_congr
      intro e _
      by_cases he : e.1 = k
      · simp [he, hk]
      · simp [he]

theorem deleteUnpreserved_entries (preserve : List String) (m : StringMap) :
    (deleteUnpreserved preserve m).entries
      = m.entries.filter (fun e => Contains preserve e.1) := by
  unfold deleteUnpreserved
  rw [foldl_delete_entries]
  apply List.filter_congr
  intro e he
  have : e.1 ∈ m.keys := List.mem_map_of_mem Prod.fst he
  simp [this]

theorem find_filter_key (p : String → Bool) (es : List (String × String)) (k : String) :
    ((es.filter (fun e => p e.1)).find? (fun e => e.1 == k))
      = if p k then es.find? (fun e => e.1 == k) else none := by
  induction es with
  | nil => simp
  | cons e es ih =>
    by_cases hp : p e.1 = true <;> by_cases he : e.1 = k
    · subst he
      simp [List.filter_cons, hp]
    · simp [List.filter_cons, List.find?_cons, hp, he, ih]
    · subst he
      simp [List.filter_cons, hp] at ih ⊢
      exact ih
    · simp [List.filter_cons, List.find?_cons, hp, he, ih]

theorem deleteUnpreserved_lookup (preserve : List String) (m : StringMap) (k : String) :
    (deleteUnpreserved preserve m).lookup k
      = if k ∈ preserve then m.lookup k else none := by
  unfold StringMap.lookup
  rw [deleteUnpreserved_entries, find_filter_key (Contains preserve), Contains_eq_decide]
  by_cases h : k ∈ preserve <;> simp [h]

theorem deleteUnpreserved_keys (preserve : List String) (m : StringMap) :
    ∀ k ∈ (deleteUnpreserved preserve m).keys, k ∈ preserve := by
  intro k hk
  unfold StringMap.keys at hk
  rw [deleteUnpreserved_entries] at hk
  obtain ⟨e, he, rfl⟩ := List.mem_map.1 hk
  exact (Contains_iff preserve e.1).1 (List.mem_filter.1 he).2

theorem keys_length_le (m : StringMap) (allowed : List String)
    (h : ∀ k ∈ m.keys, k ∈ allowed) : m.keys.length ≤ allowed.length :=
  (List.Nodup.subperm m.nodup h).length_le

theorem resetPVCAnnotations_indexOk (pvc : PersistentVolumeClaim) (preserve : List String)
    (k : String) :
    indexOk (resetPVCAnnotations pvc preserve).Annotations k
      = if k ∈ preserve then indexOk pvc.Annotations k else none := by
  unfold resetPVCAnnotations
  cases h : pvc.Annotations with
  | none => simp [indexOk, StringMap.lookup, StringMap.empty]
  | some m => simp only [indexOk]; exact deleteUnpreserved_lookup preserve m k

theorem resetPVCAnnotations_lookup_spec (pvc : PersistentVolumeClaim) (preserve : List String) :
    ∃ m, (resetPVCAnnotations pvc preserve).Annotations = some m ∧
      ∀ k, m.lookup k = if k ∈ preserve then indexOk pvc.Annotations k else none := by
  cases h : pvc.Annotations with
  | none =>
    refine ⟨StringMap.empty, by simp [resetPVCAnnotations, h], ?_⟩
    intro k
    simp [StringMap.lookup, StringMap.empty, indexOk]
  | some orig =>
    refine ⟨deleteUnpreserved preserve orig, by simp [resetPVCAnnotations, h], ?_⟩
    intro k
    simpa [indexOk] using deleteUnpreserved_lookup preserve orig k

/-! ## Claims on `resetPVCAnnotations`, `resetPVCSpec` and `Execute` -/

/-- C1: after `resetPVCAnnotations pvc preserve` the annotation map is non-nil and holds exactly
the original entries whose key is in `preserve`: looking up a key gives the original value when
the key is in `preserve` and nothing otherwise (a nil map becomes the empty map), the entries
are the original ones filtered, in order; with the allow-list of `Execute` at most the two keys
`BackupNameLabel` and `VolumeSnapshotLabel` remain. -/
theorem resetPVCAnnotations_keeps_exactly_preserved (pvc : PersistentVolumeClaim)
    (preserve : List String) :
    ∃ m, (resetPVCAnnotations pvc preserve).Annotations = some m ∧
      (∀ k, m.lookup k = if k ∈ preserve then indexOk pvc.Annotations k else none) ∧
      m.entries = (match pvc.Annotations with
        | none => []
        | some orig => orig.entries.filter (fun e => decide (e.1 ∈ preserve))) ∧
      ∀ c : Consts, ∃ m2,
        (resetPVCAnnotations pvc [c.BackupNameLabel, c.VolumeSnapshotLabel]).Annotations = some m2 ∧
        m2.keys.length ≤ 2 ∧
        ∀ k ∈ m2.keys, k = c.BackupNameLabel ∨ k = c.VolumeSnapshotLabel := by
  cases h : pvc.Annotations with
  | none =>
    refine ⟨StringMap.empty, by simp [resetPVCAnnotations, h], ?_, rfl, ?_⟩
    · intro k
      simp [StringMap.lookup, StringMap.empty, indexOk]
    · intro c
      exact ⟨StringMap.empty, by simp [resetPVCAnnotations, h],
        by simp [StringMap.keys, StringMap.empty], by simp [StringMap.keys, StringMap.empty]⟩
  | some orig =>
    refine ⟨deleteUnpreserved preserve orig, by simp [resetPVCAnnotations, h], ?_, ?_, ?_⟩
    · intro k
      simpa [indexOk] using deleteUnpreserved_lookup preserve orig k
    · rw [deleteUnpreserved_entries]
      apply List.filter_congr
      intro e _
      exact Contains_eq_decide preserve e.1
    · intro c
      refine ⟨deleteUnpreserved [c.BackupNameLabel, c.VolumeSnapshotLabel] orig,
        by simp [resetPVCAnnotations, h], ?_, ?_⟩
      · exact keys_length_le _ [c.BackupNameLabel, c.VolumeSnapshotLabel]
          (deleteUnpreserved_keys _ orig)
      · intro k hk
        simpa using deleteUnpreserved_keys _ orig k hk

/-- C2: after `resetPVCSpec pvc vsName` the volume name is empty and the data source is the
reference with kind "VolumeSnapshot", name `vsName` and the snapshot API group, whatever they
were before; namespace, name, labels, annotations, the other fields of the spec and the status
are unchanged. -/
theorem resetPVCSpec_sets_data_source_only (c : Consts) (pvc : PersistentVolumeClaim)
    (vsName : String) :
    (resetPVCSpec c pvc vsName).Spec.VolumeName = "" ∧
    (resetPVCSpec c pvc vsName).Spec.DataSource
      = some { APIGroup := some c.SnapshotGroup, Kind := "VolumeSnapshot", Name := vsName } ∧
    (resetPVCSpec c pvc vsName).Namespace = pvc.Namespace ∧
    (resetPVCSpec c pvc vsName).Name = pvc.Name ∧
    (resetPVCSpec c pvc vsName).Labels = pvc.Labels ∧
    (resetPVCSpec c pvc vsName).Annotations = pvc.Annotations ∧
    (resetPVCSpec c pvc vsName).Spec.AccessModes = pvc.Spec.AccessModes ∧
    (resetPVCSpec c pvc vsName).Spec.StorageClassName = pvc.Spec.StorageClassName ∧
    (resetPVCSpec c pvc vsName).Spec.VolumeMode = pvc.Spec.VolumeMode ∧
    (resetPVCSpec c pvc vsName).Status = pvc.Status :=
  ⟨rfl, rfl, rfl, rfl, rfl, rfl, rfl, rfl, rfl, rfl⟩

/-- C3: when the input item converts to a PVC whose annotations have no entry for
`VolumeSnapshotLabel` (a nil annotation map included), `Execute` returns no error and the
updated item is the input item itself. -/
theorem Execute_skips_without_snapshot_annotation {U : Type} (c : Consts)
    (conv : UnstructuredConverter U) (input : RestoreItemActionExecuteInput U)
    (pvc : PersistentVolumeClaim)
    (hconv : conv.FromUnstructured input.Item = .ok pvc)
    (hno : indexOk pvc.Annotations c.VolumeSnapshotLabel = none) :
    Execute c conv input = .ok { UpdatedItem := input.Item } := by
  have hafter : indexOk
      (resetPVCAnnotations pvc [c.BackupNameLabel, c.VolumeSnapshotLabel]).Annotations
      c.VolumeSnapshotLabel = none := by
    rw [resetPVCAnnotations_indexOk, hno]
    simp
  simp only [Execute, hconv, hafter]

theorem Execute_skips_without_snapshot_annotation_witness :
    indexOk (examplePVC (some annotationsWithoutSnapshot)).Annotations
        exampleConsts.VolumeSnapshotLabel = none ∧
      indexOk (examplePVC none).Annotations exampleConsts.VolumeSnapshotLabel = none ∧
      Execute exampleConsts identityConverter ⟨examplePVC (some annotationsWithoutSnapshot)⟩
        = .ok { UpdatedItem := examplePVC (some annotationsWithoutSnapshot) } ∧
      Execute exampleConsts identityConverter ⟨examplePVC none⟩
        = .ok { UpdatedItem := examplePVC none } :=
  ⟨by decide, by decide,
    Execute_skips_without_snapshot_annotation exampleConsts identityConverter
      ⟨examplePVC (some annotationsWithoutSnapshot)⟩ _ rfl (by decide),
    Execute_skips_without_snapshot_annotation exampleConsts identityConverter
      ⟨examplePVC none⟩ _ rfl (by decide)⟩

/-- C4: when the input item converts to a PVC whose annotations map `VolumeSnapshotLabel` to
`v`, and the unstructured conversions are a lossless round trip, `Execute` returns no error and
an item that converts to a PVC with empty volume name, data source the VolumeSnapshot `v` in the
snapshot API group, and annotations that are exactly the original entries of the keys
`BackupNameLabel` and `VolumeSnapshotLabel` (so the snapshot annotation is still `v`); looking
the annotation up before or after `resetPVCAnnotations` gives the same answer. -/
theorem Execute_rewrites_with_snapshot_annotation {U : Type} (c : Consts)
    (conv : UnstructuredConverter U) (input : RestoreItemActionExecuteInput U)
    (pvc : PersistentVolumeClaim) (v : String)
    (hconv : conv.FromUnstructured input.Item = .ok pvc)
    (hv : indexOk pvc.Annotations c.VolumeSnapshotLabel = some v)
    (hround : ∀ p, ∃ u, conv.ToUnstructured p = .ok u ∧ conv.FromUnstructured u = .ok p) :
    ∃ out updated m,
      Execute c conv input = .ok out ∧
      conv.FromUnstructured out.UpdatedItem = .ok updated ∧
      updated.Spec.VolumeName = "" ∧
      updated.Spec.DataSource
        = some { APIGroup := some c.SnapshotGroup, Kind := "VolumeSnapshot", Name := v } ∧
      updated.Annotations = some m ∧
      (∀ k, m.lookup k = if k = c.BackupNameLabel ∨ k = c.VolumeSnapshotLabel
        then indexOk pvc.Annotations k else none) ∧
      m.lookup c.VolumeSnapshotLabel = some v ∧
      indexOk (resetPVCAnnotations pvc [c.BackupNameLabel, c.VolumeSnapshotLabel]).Annotations
        c.VolumeSnapshotLabel = indexOk pvc.Annotations c.VolumeSnapshotLabel := by
  have hsame : indexOk
      (resetPVCAnnotations pvc [c.BackupNameLabel, c.VolumeSnapshotLabel]).Annotations
      c.VolumeSnapshotLabel = indexOk pvc.Annotations c.VolumeSnapshotLabel := by
    rw [resetPVCAnnotations_indexOk]
    simp
  obtain ⟨m, hm, hlookup⟩ :=
    resetPVCAnnotations_lookup_spec pvc [c.BackupNameLabel, c.VolumeSnapshotLabel]
  obtain ⟨u, hto, hfrom⟩ := hround
    (resetPVCSpec c (resetPVCAnnotations pvc [c.BackupNameLabel, c.VolumeSnapshotLabel]) v)
  refine ⟨{ UpdatedItem := u }, _, m, ?_, hfrom, rfl, rfl, hm, ?_, ?_, hsame⟩
  · simp only [Execute, hconv, hsame, hv, hto]
  · intro k
    simpa using hlookup k
  · have := hlookup c.VolumeSnapshotLabel
    simpa [hv] using this

theorem Execute_rewrites_with_snapshot_annotation_witness :
    ∃ out updated m,
      Execute exampleConsts identityConverter ⟨examplePVC (some annotationsWithSnapshot)⟩
        = .ok out ∧
      identityConverter.FromUnstructured out.UpdatedItem = .ok updated ∧
      updated.Spec.VolumeName = "" ∧
      updated.Spec.DataSource
        = some { APIGroup := some "snapshot.storage.k8s.io", Kind := "VolumeSnapshot",
                 Name := "snap-1" } ∧
      updated.Annotations = some m ∧
      (∀ k, m.lookup k = if k = "velero.io/backup-name" ∨ k = "velero.io/volume-snapshot-name"
        then indexOk (some annotationsWithSnapshot) k else none) ∧
      m.lookup "velero.io/volume-snapshot-name" = some "snap-1" ∧
      indexOk (resetPVCAnnotations (examplePVC (some annotationsWithSnapshot))
          ["velero.io/backup-name", "velero.io/volume-snapshot-name"]).Annotations
        "velero.io/volume-snapshot-name"
        = indexOk (some annotationsWithSnapshot) "velero.io/volume-snapshot-name" :=
  Execute_rewrites_with_snapshot_annotation exampleConsts identityConverter
    ⟨examplePVC (some annotationsWithSnapshot)⟩ (examplePVC (some annotationsWithSnapshot))
    "snap-1" rfl (by decide) (fun p => ⟨p, rfl, rfl⟩)

/-! ## The polling loop `WaitForVolumesnapshotReconcile` -/

theorem isReconciled_iff (s : VolumeSnapshot) :
    isReconciled s = true ↔
      ∃ st n, s.Status = some st ∧ st.BoundVolumeSnapshotContentName = some n := by
  unfold isReconciled
  cases hs : s.Status with
  | none => simp
  | some st =>
    cases hb : st.BoundVolumeSnapshotContentName with
    | none => simp [hb]
    | some n => simp [hb]

theorem isReconciled_eq_false_iff (s : VolumeSnapshot) :
    isReconciled s = false ↔
      (s.Status = none ∨ ∃ st, s.Status = some st ∧ st.BoundVolumeSnapshotContentName = none) := by
  unfold isReconciled
  cases hs : s.Status with
  | none => simp
  | some st =>
    cases hb : st.BoundVolumeSnapshotContentName with
    | none => simp [hb]
    | some n => simp [hb]

/-- Skipping `k` rounds that find the snapshot unreconciled. -/
theorem wait_skip_unreconciled (vs : VolumeSnapshot) (client : SnapshotClient) (interval : Nat)
    (k : Nat) : ∀ (fuel : Nat) (w : World),
    (∀ i, i < k → ∃ s, client.VolumeSnapshotsGet (w.snapshotGets + i) = .ok s ∧
      isReconciled s = false) →
    WaitForVolumesnapshotReconcile vs client interval (k + fuel) w
      = WaitForVolumesnapshotReconcile vs client interval fuel
          ⟨w.snapshotGets + k, w.contentGets,
            w.trace ++ pollTrace vs.Namespace vs.Name interval k⟩ := by
  induction k with
  | zero =>
    intro fuel w _
    simp [pollTrace]
  | succ k ih =>
    intro fuel w h
    obtain ⟨s, hs, hr⟩ := h 0 (Nat.succ_pos k)
    have hstep : WaitForVolumesnapshotReconcile vs client interval (k + fuel + 1) w
        = WaitForVolumesnapshotReconcile vs client interval (k + fuel)
            ((w.afterSnapshotGet vs.Namespace vs.Name).afterSleep interval) := by
      simp only [Nat.add_zero] at hs
      simp [WaitForVolumesnapshotReconcile, hs, hr]
    have hfuel : k + 1 + fuel = k + fuel + 1 := by omega
    rw [hfuel, hstep, ih]
    · simp [World.afterSnapshotGet, World.afterSleep, pollTrace, Nat.add_assoc, Nat.add_comm 1 k]
    · intro i hi
      obtain ⟨s', hs', hr'⟩ := h (i + 1) (Nat.succ_lt_succ hi)
      refine ⟨s', ?_, hr'⟩
      have hidx : ((w.afterSnapshotGet vs.Namespace vs.Name).afterSleep interval).snapshotGets + i
          = w.snapshotGets + (i + 1) := by
        simp only [World.afterSnapshotGet, World.afterSleep]
        omega
      rw [hidx]
      exact hs'

/-- Every return of the loop comes after some number `j` of unsuccessful rounds and one more
`Get`, all for the namespace and name of the snapshot passed in; the last response decides
the result. -/
theorem wait_return_shape (vs : VolumeSnapshot) (client : SnapshotClient) (interval : Nat)
    (fuel : Nat) : ∀ (w : World) (r : Option Error) (w2 : World),
    WaitForVolumesnapshotReconcile vs client interval fuel w = some (r, w2) →
    ∃ j, w2.snapshotGets = w.snapshotGets + j + 1 ∧ w2.contentGets = w.contentGets ∧
      w2.trace = w.trace ++ pollTrace vs.Namespace vs.Name interval j
        ++ [.getVolumeSnapshot vs.Namespace vs.Name] ∧
      ((r = none ∧ ∃ s, client.VolumeSnapshotsGet (w.snapshotGets + j) = .ok s ∧
          isReconciled s = true) ∨
       (∃ e, r = some (.withStack e) ∧
          client.VolumeSnapshotsGet (w.snapshotGets + j) = .error e)) := by
  induction fuel with
  | zero =>
    intro w r w2 h
    simp [WaitForVolumesnapshotReconcile] at h
  | succ fuel ih =>
    intro w r w2 h
    unfold WaitForVolumesnapshotReconcile at h
    cases hg : client.VolumeSnapshotsGet w.snapshotGets with
    | error e =>
      simp only [hg, Option.some.injEq, Prod.mk.injEq] at h
      obtain ⟨hr, hw⟩ := h
      subst hw
      refine ⟨0, rfl, rfl, by simp [pollTrace, World.afterSnapshotGet], Or.inr ⟨e, hr.symm, ?_⟩⟩
      simpa using hg
    | ok s =>
      simp only [hg] at h
      by_cases hrec : isReconciled s = true
      · simp only [hrec, if_true, Option.some.injEq, Prod.mk.injEq] at h
        obtain ⟨hr, hw⟩ := h
        subst hw
        refine ⟨0, rfl, rfl, by simp [pollTrace, World.afterSnapshotGet],
          Or.inl ⟨hr.symm, s, ?_, hrec⟩⟩
        simpa using hg
      · simp only [hrec, if_false] at h
        obtain ⟨j, hsg, hcg, htr, hlast⟩ := ih _ r w2 h
        refine ⟨j + 1, ?_, ?_, ?_, ?_⟩
        · simp only [World.afterSnapshotGet, World.afterSleep] at hsg
          omega
        · simpa [World.afterSnapshotGet, World.afterSleep] using hcg
        · rw [htr]
          simp [World.afterSnapshotGet, World.afterSleep, pollTrace]
        · have hidx : ((w.afterSnapshotGet vs.Namespace vs.Name).afterSleep interval).snapshotGets
              + j = w.snapshotGets + (j + 1) := by
            simp only [World.afterSnapshotGet, World.afterSleep]
            omega
          rw [hidx] at hlast
          exact hlast

/-- C6: over the responses `r0, r1, ...` to `VolumeSnapshots(ns).Get(name)` that follow the
world `w`: if the first `k` responses are successful with a nil `Status` or a nil
`BoundVolumeSnapshotContentName`, then with fuel for `k + 1` rounds (i) a successful response
`rk` with both fields non-nil makes the function return nil after exactly `k + 1` `Get`s and `k`
sleeps of `interval`, and (ii) an error `rk` makes it return a non-nil error after exactly
`k + 1` `Get`s; whenever it returns nil the last fetched snapshot has a status and a bound
content name, and every `Get` made before any return is for the namespace and name of the
snapshot passed in. -/
theorem WaitForVolumesnapshotReconcile_polls_until_bound (vs : VolumeSnapshot)
    (client : SnapshotClient) (interval k fuel : Nat) (w : World)
    (hpre : ∀ i, i < k → ∃ s, client.VolumeSnapshotsGet (w.snapshotGets + i) = .ok s ∧
      (s.Status = none ∨ ∃ st, s.Status = some st ∧ st.BoundVolumeSnapshotContentName = none))
    (hfuel : k < fuel) :
    (∀ s st n, client.VolumeSnapshotsGet (w.snapshotGets + k) = .ok s → s.Status = some st →
      st.BoundVolumeSnapshotContentName = some n →
      WaitForVolumesnapshotReconcile vs client interval fuel w
        = some (none, ⟨w.snapshotGets + k + 1, w.contentGets,
            w.trace ++ pollTrace vs.Namespace vs.Name interval k
              ++ [.getVolumeSnapshot vs.Namespace vs.Name]⟩)) ∧
    (∀ e, client.VolumeSnapshotsGet (w.snapshotGets + k) = .error e →
      WaitForVolumesnapshotReconcile vs client interval fuel w
        = some (some (.withStack e), ⟨w.snapshotGets + k + 1, w.contentGets,
            w.trace ++ pollTrace vs.Namespace vs.Name interval k
              ++ [.getVolumeSnapshot vs.Namespace vs.Name]⟩)) ∧
    (∀ fuel2 w0 w2, WaitForVolumesnapshotReconcile vs client interval fuel2 w0 = some (none, w2) →
      w0.snapshotGets < w2.snapshotGets ∧
      ∃ s st n, client.VolumeSnapshotsGet (w2.snapshotGets - 1) = .ok s ∧ s.Status = some st ∧
        st.BoundVolumeSnapshotContentName = some n) ∧
    (∀ fuel2 w0 r w2, WaitForVolumesnapshotReconcile vs client interval fuel2 w0 = some (r, w2) →
      ∃ j, w2.snapshotGets = w0.snapshotGets + j + 1 ∧
        w2.trace = w0.trace ++ pollTrace vs.Namespace vs.Name interval j
          ++ [.getVolumeSnapshot vs.Namespace vs.Name]) := by
  have hpre2 : ∀ i, i < k → ∃ s, client.VolumeSnapshotsGet (w.snapshotGets + i) = .ok s ∧
      isReconciled s = false := by
    intro i hi
    obtain ⟨s, hs, hn⟩ := hpre i hi
    exact ⟨s, hs, (isReconciled_eq_false_iff s).2 hn⟩
  obtain ⟨extra, rfl⟩ : ∃ extra, fuel = k + (extra + 1) := ⟨fuel - k - 1, by omega⟩
  have hskip := wait_skip_unreconciled vs client interval k (extra + 1) w hpre2
  refine ⟨?_, ?_, ?_, ?_⟩
  · intro s st n hs hst hn
    have hrec : isReconciled s = true := (isReconciled_iff s).2 ⟨st, n, hst, hn⟩
    rw [hskip]
    simp [WaitForVolumesnapshotReconcile, hs, hrec, World.afterSnapshotGet]
  · intro e he
    rw [hskip]
    simp [WaitForVolumesnapshotReconcile, he, World.afterSnapshotGet]
  · intro fuel2 w0 w2 h
    obtain ⟨j, hsg, -, -, hlast⟩ := wait_return_shape vs client interval fuel2 w0 none w2 h
    refine ⟨by omega, ?_⟩
    rcases hlast with ⟨-, s, hs, hrec⟩ | ⟨e, he, -⟩
    · obtain ⟨st, n, hst, hn⟩ := (isReconciled_iff s).1 hrec
      refine ⟨s, st, n, ?_, hst, hn⟩
      have : w2.snapshotGets - 1 = w0.snapshotGets + j := by omega
      rw [this]
      exact hs
    · cases he
  · intro fuel2 w0 r w2 h
    obtain ⟨j, hsg, -, htr, -⟩ := wait_return_shape vs client interval fuel2 w0 r w2 h
    exact ⟨j, hsg, htr⟩

theorem WaitForVolumesnapshotReconcile_polls_until_bound_witness :
    WaitForVolumesnapshotReconcile (exampleSnapshot none) slowClient 7 3 World.init
      = some (none, ⟨3, 0,
          [.getVolumeSnapshot "ns" "snap", .sleep 7, .getVolumeSnapshot "ns" "snap", .sleep 7,
            .getVolumeSnapshot "ns" "snap"]⟩) :=
  (WaitForVolumesnapshotReconcile_polls_until_bound (exampleSnapshot none) slowClient 7 2 3
    World.init
    (fun i hi => by
      have hcases : i = 0 ∨ i = 1 := by omega
      rcases hcases with rfl | rfl
      · exact ⟨exampleSnapshot none, rfl, Or.inl rfl⟩
      · exact ⟨exampleSnapshot none, rfl, Or.inl rfl⟩)
    (by decide)).1 (exampleSnapshot (some boundStatus)) boundStatus "content-1" rfl rfl rfl

/-! ## The loop of `GetVolumeSnapshotContentForVolumeSnapshot` -/

theorem lacksHandle_iff (c : VolumeSnapshotContent) :
    lacksHandle c = true ↔
      (c.Status = none ∨ ∃ st, c.Status = some st ∧ st.SnapshotHandle = none) := by
  unfold lacksHandle
  cases hs : c.Status with
  | none => simp
  | some st =>
    cases hh : st.SnapshotHandle with
    | none => simp [hh]
    | some h => simp [hh]

theorem lacksHandle_eq_false_iff (c : VolumeSnapshotContent) :
    lacksHandle c = false ↔ ∃ st h, c.Status = some st ∧ st.SnapshotHandle = some h := by
  unfold lacksHandle
  cases hs : c.Status with
  | none => simp
  | some st =>
    cases hh : st.SnapshotHandle with
    | none => simp [hh]
    | some h => simp [hh]

/-- One round in which the wait step fails. -/
theorem content_round_wait_error (volSnap : VolumeSnapshot) (client : SnapshotClient)
    (fuel : Nat) (w w1 : World) (e : Error)
    (hwait : WaitForVolumesnapshotReconcile volSnap client (5 * Second) (fuel + 1) w
      = some (some e, w1)) :
    GetVolumeSnapshotContentForVolumeSnapshot volSnap client (fuel + 1) w
      = some (.returned (none, some (.withStack e)), w1) := by
  rw [GetVolumeSnapshotContentForVolumeSnapshot, hwait]

/-- One round in which the wait step succeeds and the content `Get` fails. -/
theorem content_round_get_error (volSnap : VolumeSnapshot) (client : SnapshotClient)
    (fuel : Nat) (w w1 : World) (st : VolumeSnapshotStatus) (n : String) (e : Error)
    (hwait : WaitForVolumesnapshotReconcile volSnap client (5 * Second) (fuel + 1) w
      = some (none, w1))
    (hst : volSnap.Status = some st) (hn : st.BoundVolumeSnapshotContentName = some n)
    (hget : client.VolumeSnapshotContentsGet w1.contentGets = .error e) :
    GetVolumeSnapshotContentForVolumeSnapshot volSnap client (fuel + 1) w
      = some (.returned (none, some (.wrapf e
          ("failed to get volumesnapshotcontent " ++ n ++ " for volumesnapshot "
            ++ volSnap.Namespace ++ "/" ++ volSnap.Name))), w1.afterContentGet n) := by
  rw [GetVolumeSnapshotContentForVolumeSnapshot, hwait]
  simp only [hst, hn, hget]

/-- One round in which the fetched content has no handle yet. -/
theorem content_round_retry (volSnap : VolumeSnapshot) (client : SnapshotClient)
    (fuel : Nat) (w w1 : World) (st : VolumeSnapshotStatus) (n : String)
    (c : VolumeSnapshotContent)
    (hwait : WaitForVolumesnapshotReconcile volSnap client (5 * Second) (fuel + 1) w
      = some (none, w1))
    (hst : volSnap.Status = some st) (hn : st.BoundVolumeSnapshotContentName = some n)
    (hget : client.VolumeSnapshotContentsGet w1.contentGets = .ok c)
    (hlacks : lacksHandle c = true) :
    GetVolumeSnapshotContentForVolumeSnapshot volSnap client (fuel + 1) w
      = GetVolumeSnapshotContentForVolumeSnapshot volSnap client fuel
          ((w1.afterContentGet n).afterSleep (5 * Second)) := by
  rw [GetVolumeSnapshotContentForVolumeSnapshot, hwait]
  simp only [hst, hn, hget, hlacks, if_true]

/-- One round in which the fetched content has its handle. -/
theorem content_round_done (volSnap : VolumeSnapshot) (client : SnapshotClient)
    (fuel : Nat) (w w1 : World) (st : VolumeSnapshotStatus) (n : String)
    (c : VolumeSnapshotContent)
    (hwait : WaitForVolumesnapshotReconcile volSnap client (5 * Second) (fuel + 1) w
      = some (none, w1))
    (hst : volSnap.Status = some st) (hn : st.BoundVolumeSnapshotContentName = some n)
    (hget : client.VolumeSnapshotContentsGet w1.contentGets = .ok c)
    (hhas : lacksHandle c = false) :
    GetVolumeSnapshotContentForVolumeSnapshot volSnap client (fuel + 1) w
      = some (.returned (some c, none), w1.afterContentGet n) := by
  rw [GetVolumeSnapshotContentForVolumeSnapshot, hwait]
  simp [hst, hn, hget, hhas]

/-- Every return of the function is either a content with a handle, the one answered by the
last content `Get`, with a nil error, or a nil content with a non-nil error. -/
theorem content_return_shape (volSnap : VolumeSnapshot) (client : SnapshotClient)
    (fuel : Nat) : ∀ (w : World) (oc : Option VolumeSnapshotContent) (oe : Option Error)
      (w2 : World),
    GetVolumeSnapshotContentForVolumeSnapshot volSnap client fuel w
      = some (.returned (oc, oe), w2) →
    (∃ c, oc = some c ∧ oe = none ∧ lacksHandle c = false ∧ w.contentGets < w2.contentGets ∧
        client.VolumeSnapshotContentsGet (w2.contentGets - 1) = .ok c) ∨
    (oc = none ∧ ∃ e, oe = some e) := by
  induction fuel with
  | zero =>
    intro w oc oe w2 h
    simp [GetVolumeSnapshotContentForVolumeSnapshot] at h
  | succ fuel ih =>
    intro w oc oe w2 h
    cases hwait : WaitForVolumesnapshotReconcile volSnap client (5 * Second) (fuel + 1) w with
    | none =>
      rw [GetVolumeSnapshotContentForVolumeSnapshot, hwait] at h
      cases h
    | some res =>
      obtain ⟨r, w1⟩ := res
      cases r with
      | some e =>
        rw [content_round_wait_error volSnap client fuel w w1 e hwait] at h
        simp only [Option.some.injEq, Prod.mk.injEq, Outcome.returned.injEq] at h
        obtain ⟨⟨hoc, hoe⟩, -⟩ := h
        exact Or.inr ⟨hoc.symm, _, hoe.symm⟩
      | none =>
        obtain ⟨j, -, hcg, -, -⟩ :=
          wait_return_shape volSnap client (5 * Second) (fuel + 1) w none w1 hwait
        cases hst : volSnap.Status with
        | none =>
          rw [GetVolumeSnapshotContentForVolumeSnapshot, hwait] at h
          simp [hst] at h
        | some st =>
          cases hn : st.BoundVolumeSnapshotContentName with
          | none =>
            rw [GetVolumeSnapshotContentForVolumeSnapshot, hwait] at h
            simp [hst, hn] at h
          | some n =>
            cases hget : client.VolumeSnapshotContentsGet w1.contentGets with
            | error e =>
              rw [content_round_get_error volSnap client fuel w w1 st n e hwait hst hn hget] at h
              simp only [Option.some.injEq, Prod.mk.injEq, Outcome.returned.injEq] at h
              obtain ⟨⟨hoc, hoe⟩, -⟩ := h
              exact Or.inr ⟨hoc.symm, _, hoe.symm⟩
            | ok c =>
              by_cases hl : lacksHandle c = true
              · rw [content_round_retry volSnap client fuel w w1 st n c hwait hst hn hget hl] at h
                rcases ih _ oc oe w2 h with ⟨c2, hoc, hoe, hl2, hlt, hlast⟩ | hr
                · refine Or.inl ⟨c2, hoc, hoe, hl2, ?_, hlast⟩
                  simp only [World.afterContentGet, World.afterSleep] at hlt
                  omega
                · exact Or.inr hr
              · have hl2 : lacksHandle c = false := by simpa using hl
                rw [content_round_done volSnap client fuel w w1 st n c hwait hst hn hget hl2] at h
                simp only [Option.some.injEq, Prod.mk.injEq, Outcome.returned.injEq] at h
                obtain ⟨⟨hoc, hoe⟩, hw⟩ := h
                subst hw
                refine Or.inl ⟨c, hoc.symm, hoe.symm, hl2, ?_, ?_⟩
                · simp only [World.afterContentGet]
                  omega
                · simpa [World.afterContentGet] using hget

/-- The wait step on a snapshot that the first `Get` finds reconciled. -/
theorem wait_immediate (vs : VolumeSnapshot) (client : SnapshotClient) (interval fuel : Nat)
    (w : World) (s : VolumeSnapshot)
    (hs : client.VolumeSnapshotsGet w.snapshotGets = .ok s) (hrec : isReconciled s = true) :
    WaitForVolumesnapshotReconcile vs client interval (fuel + 1) w
      = some (none, w.afterSnapshotGet vs.Namespace vs.Name) := by
  simp [WaitForVolumesnapshotReconcile, hs, hrec]

/-- Skipping `j` rounds in which the snapshot is found reconciled at once and the content has
no handle yet. -/
theorem content_skip_rounds (volSnap : VolumeSnapshot) (client : SnapshotClient)
    (st : VolumeSnapshotStatus) (n : String)
    (hst : volSnap.Status = some st) (hn : st.BoundVolumeSnapshotContentName = some n)
    (j : Nat) : ∀ (fuel : Nat) (w : World),
    (∀ i, i < j → ∃ s, client.VolumeSnapshotsGet (w.snapshotGets + i) = .ok s ∧
      isReconciled s = true) →
    (∀ i, i < j → ∃ c, client.VolumeSnapshotContentsGet (w.contentGets + i) = .ok c ∧
      lacksHandle c = true) →
    GetVolumeSnapshotContentForVolumeSnapshot volSnap client (j + fuel) w
      = GetVolumeSnapshotContentForVolumeSnapshot volSnap client fuel
          ⟨w.snapshotGets + j, w.contentGets + j,
            w.trace ++ contentPollTrace volSnap.Namespace volSnap.Name n j⟩ := by
  induction j with
  | zero =>
    intro fuel w _ _
    simp [contentPollTrace]
  | succ j ih =>
    intro fuel w hsnap hcont
    obtain ⟨s, hs, hrec⟩ := hsnap 0 (Nat.succ_pos j)
    obtain ⟨c, hc, hl⟩ := hcont 0 (Nat.succ_pos j)
    simp only [Nat.add_zero] at hs hc
    have hfuel : j + 1 + fuel = j + fuel + 1 := by omega
    have hwait := wait_immediate volSnap client (5 * Second) (j + fuel) w s hs hrec
    rw [hfuel, content_round_retry volSnap client (j + fuel) w _ st n c hwait hst hn
      (by simpa [World.afterSnapshotGet] using hc) hl, ih]
    · simp [World.afterSnapshotGet, World.afterContentGet, World.afterSleep, contentPollTrace,
        Nat.add_assoc, Nat.add_comm 1 j]
    · intro i hi
      obtain ⟨s2, hs2, hr2⟩ := hsnap (i + 1) (Nat.succ_lt_succ hi)
      refine ⟨s2, ?_, hr2⟩
      simp only [World.afterSnapshotGet, World.afterContentGet, World.afterSleep]
      rw [Nat.add_assoc, Nat.add_comm 1 i]
      exact hs2
    · intro i hi
      obtain ⟨c2, hc2, hl2⟩ := hcont (i + 1) (Nat.succ_lt_succ hi)
      refine ⟨c2, ?_, hl2⟩
      simp only [World.afterSnapshotGet, World.afterContentGet, World.afterSleep]
      rw [Nat.add_assoc, Nat.add_comm 1 i]
      exact hc2

/-- A result of the wait loop does not depend on how much fuel was left over. -/
theorem wait_fuel_mono (vs : VolumeSnapshot) (client : SnapshotClient) (interval : Nat)
    (fuel : Nat) : ∀ (w : World) (res : Option Error × World),
    WaitForVolumesnapshotReconcile vs client interval fuel w = some res →
    WaitForVolumesnapshotReconcile vs client interval (fuel + 1) w = some res := by
  induction fuel with
  | zero =>
    intro w res h
    simp [WaitForVolumesnapshotReconcile] at h
  | succ fuel ih =>
    intro w res h
    rw [WaitForVolumesnapshotReconcile] at h ⊢
    cases hg : client.VolumeSnapshotsGet w.snapshotGets with
    | error e => simpa [hg] using h
    | ok s =>
      simp only [hg] at h ⊢
      by_cases hrec : isReconciled s = true
      · simpa [hrec] using h
      · simp only [hrec, if_false] at h ⊢
        exact ih _ res h

/-- A result of `GetVolumeSnapshotContentForVolumeSnapshot` does not depend on how much fuel
was left over. -/
theorem content_fuel_mono (volSnap : VolumeSnapshot) (client : SnapshotClient)
    (fuel : Nat) : ∀ (w : World)
      (res : Outcome (Option VolumeSnapshotContent × Option Error) × World),
    GetVolumeSnapshotContentForVolumeSnapshot volSnap client fuel w = some res →
    GetVolumeSnapshotContentForVolumeSnapshot volSnap client (fuel + 1) w = some res := by
  induction fuel with
  | zero =>
    intro w res h
    simp [GetVolumeSnapshotContentForVolumeSnapshot] at h
  | succ fuel ih =>
    intro w res h
    cases hwait : WaitForVolumesnapshotReconcile volSnap client (5 * Second) (fuel + 1) w with
    | none =>
      rw [GetVolumeSnapshotContentForVolumeSnapshot, hwait] at h
      cases h
    | some wres =>
      have hwait2 := wait_fuel_mono volSnap client (5 * Second) (fuel + 1) w wres hwait
      obtain ⟨r, w1⟩ := wres
      rw [GetVolumeSnapshotContentForVolumeSnapshot, hwait] at h
      rw [GetVolumeSnapshotContentForVolumeSnapshot, hwait2]
      cases r with
      | some e => exact h
      | none =>
        cases hst : volSnap.Status with
        | none => simpa [hst] using h
        | some st =>
          cases hn : st.BoundVolumeSnapshotContentName with
          | none => simpa [hst, hn] using h
          | some n =>
            simp only [hst, hn] at h ⊢
            cases hget : client.VolumeSnapshotContentsGet w1.contentGets with
            | error e => simpa [hget] using h
            | ok c =>
              simp only [hget] at h ⊢
              by_cases hl : lacksHandle c = true
              · simp only [hl, if_true] at h ⊢
                exact ih _ res h
              · simpa [hl] using h

/-- C5: whenever `GetVolumeSnapshotContentForVolumeSnapshot` returns a content with a nil
error, the content has a non-nil `Status` and a non-nil `SnapshotHandle` and is the answer of
the last `VolumeSnapshotContents().Get`; every return has either a content and a nil error or a
nil content and a non-nil error; an error of the wait step ends the call with a nil content and
that error wrapped; an error of the content `Get` ends it with a nil content and a non-nil
error; a fetched content without status or handle is not returned but followed by a sleep of
five seconds and another round; and when the snapshot passed in is bound, each wait step finds
the snapshot reconciled at once, and the content lacks its handle `j` times before it has one,
the call returns that content after `j + 1` rounds, given fuel for them. -/
theorem GetVolumeSnapshotContentForVolumeSnapshot_returns_content_with_handle
    (volSnap : VolumeSnapshot) (client : SnapshotClient) :
    (∀ fuel w content w2,
      GetVolumeSnapshotContentForVolumeSnapshot volSnap client fuel w
        = some (.returned (some content, none), w2) →
      (∃ st h, content.Status = some st ∧ st.SnapshotHandle = some h) ∧
      w.contentGets < w2.contentGets ∧
      client.VolumeSnapshotContentsGet (w2.contentGets - 1) = .ok content) ∧
    (∀ fuel w oc oe w2,
      GetVolumeSnapshotContentForVolumeSnapshot volSnap client fuel w
        = some (.returned (oc, oe), w2) →
      (oc ≠ none ∧ oe = none) ∨ (oc = none ∧ oe ≠ none)) ∧
    (∀ fuel w e w1,
      WaitForVolumesnapshotReconcile volSnap client (5 * Second) (fuel + 1) w
        = some (some e, w1) →
      GetVolumeSnapshotContentForVolumeSnapshot volSnap client (fuel + 1) w
        = some (.returned (none, some (.withStack e)), w1)) ∧
    (∀ fuel w w1 st n e,
      WaitForVolumesnapshotReconcile volSnap client (5 * Second) (fuel + 1) w
        = some (none, w1) →
      volSnap.Status = some st → st.BoundVolumeSnapshotContentName = some n →
      client.VolumeSnapshotContentsGet w1.contentGets = .error e →
      ∃ err, GetVolumeSnapshotContentForVolumeSnapshot volSnap client (fuel + 1) w
        = some (.returned (none, some err), w1.afterContentGet n)) ∧
    (∀ fuel w w1 st n c,
      WaitForVolumesnapshotReconcile volSnap client (5 * Second) (fuel + 1) w
        = some (none, w1) →
      volSnap.Status = some st → st.BoundVolumeSnapshotContentName = some n →
      client.VolumeSnapshotContentsGet w1.contentGets = .ok c →
      (c.Status = none ∨ ∃ cst, c.Status = some cst ∧ cst.SnapshotHandle = none) →
      GetVolumeSnapshotContentForVolumeSnapshot volSnap client (fuel + 1) w
        = GetVolumeSnapshotContentForVolumeSnapshot volSnap client fuel
            ((w1.afterContentGet n).afterSleep (5 * Second))) ∧
    (∀ st n j fuel w content cst h,
      volSnap.Status = some st → st.BoundVolumeSnapshotContentName = some n →
      (∀ i, i ≤ j → ∃ s sst sn, client.VolumeSnapshotsGet (w.snapshotGets + i) = .ok s ∧
        s.Status = some sst ∧ sst.BoundVolumeSnapshotContentName = some sn) →
      (∀ i, i < j → ∃ c, client.VolumeSnapshotContentsGet (w.contentGets + i) = .ok c ∧
        (c.Status = none ∨ ∃ st2, c.Status = some st2 ∧ st2.SnapshotHandle = none)) →
      client.VolumeSnapshotContentsGet (w.contentGets + j) = .ok content →
      content.Status = some cst → cst.SnapshotHandle = some h →
      j < fuel →
      GetVolumeSnapshotContentForVolumeSnapshot volSnap client fuel w
        = some (.returned (some content, none),
            ⟨w.snapshotGets + j + 1, w.contentGets + j + 1,
              w.trace ++ contentPollTrace volSnap.Namespace volSnap.Name n j
                ++ [.getVolumeSnapshot volSnap.Namespace volSnap.Name,
                    .getVolumeSnapshotContent n]⟩)) := by
  refine ⟨?_, ?_, ?_, ?_, ?_, ?_⟩
  · intro fuel w content w2 h
    rcases content_return_shape volSnap client fuel w _ _ w2 h with
      ⟨c, hoc, -, hl, hlt, hlast⟩ | ⟨hoc, -⟩
    · cases hoc
      exact ⟨(lacksHandle_eq_false_iff content).1 hl, hlt, hlast⟩
    · cases hoc
  · intro fuel w oc oe w2 h
    rcases content_return_shape volSnap client fuel w oc oe w2 h with
      ⟨c, hoc, hoe, -⟩ | ⟨hoc, e, hoe⟩
    · exact Or.inl ⟨by simp [hoc], hoe⟩
    · exact Or.inr ⟨hoc, by simp [hoe]⟩
  · intro fuel w e w1 hwait
    exact content_round_wait_error volSnap client fuel w w1 e hwait
  · intro fuel w w1 st n e hwait hst hn hget
    exact ⟨_, content_round_get_error volSnap client fuel w w1 st n e hwait hst hn hget⟩
  · intro fuel w w1 st n c hwait hst hn hget hl
    exact content_round_retry volSnap client fuel w w1 st n c hwait hst hn hget
      ((lacksHandle_iff c).2 hl)
  · intro st n j fuel w content cst h hst hn hsnap hcont hget hcst hh hfuel
    obtain ⟨extra, rfl⟩ : ∃ extra, fuel = j + (extra + 1) := ⟨fuel - j - 1, by omega⟩
    rw [content_skip_rounds volSnap client st n hst hn j (extra + 1) w
      (fun i hi => by
        obtain ⟨s, sst, sn, hs, h1, h2⟩ := hsnap i (Nat.le_of_lt hi)
        exact ⟨s, hs, (isReconciled_iff s).2 ⟨sst, sn, h1, h2⟩⟩)
      (fun i hi => by
        obtain ⟨c, hc, hl⟩ := hcont i hi
        exact ⟨c, hc, (lacksHandle_iff c).2 hl⟩)]
    obtain ⟨s, sst, sn, hs, h1, h2⟩ := hsnap j (Nat.le_refl j)
    have hwait := wait_immediate volSnap client (5 * Second) extra
      ⟨w.snapshotGets + j, w.contentGets + j,
        w.trace ++ contentPollTrace volSnap.Namespace volSnap.Name n j⟩ s hs
      ((isReconciled_iff s).2 ⟨sst, sn, h1, h2⟩)
    rw [content_round_done volSnap client extra _ _ st n content hwait hst hn
      (by simpa [World.afterSnapshotGet] using hget)
      ((lacksHandle_eq_false_iff content).2 ⟨cst, h, hcst, hh⟩)]
    simp [World.afterSnapshotGet, World.afterContentGet]

theorem GetVolumeSnapshotContentForVolumeSnapshot_returns_content_with_handle_witness :
    GetVolumeSnapshotContentForVolumeSnapshot (exampleSnapshot (some boundStatus)) promptClient 2
        World.init
      = some (.returned (some (exampleContent (some ⟨some "handle-1"⟩)), none),
          ⟨2, 2,
            [.getVolumeSnapshot "ns" "snap", .getVolumeSnapshotContent "content-1",
              .sleep (5 * Second),
              .getVolumeSnapshot "ns" "snap", .getVolumeSnapshotContent "content-1"]⟩) :=
  (GetVolumeSnapshotContentForVolumeSnapshot_returns_content_with_handle
    (exampleSnapshot (some boundStatus)) promptClient).2.2.2.2.2
    boundStatus "content-1" 1 2 World.init (exampleContent (some ⟨some "handle-1"⟩))
    ⟨some "handle-1"⟩ "handle-1" rfl rfl
    (fun _ _ => ⟨exampleSnapshot (some boundStatus), boundStatus, "content-1", rfl, rfl, rfl⟩)
    (fun i hi => by
      have hi0 : i = 0 := by omega
      subst hi0
      exact ⟨exampleContent none, rfl, Or.inl rfl⟩)
    rfl rfl rfl (by decide)

/-! ## The snapshot passed in is not updated by the wait step -/

/-- C9 (the code at a snapshot passed in without status): with a server that answers the first
`Get` with a bound snapshot, `WaitForVolumesnapshotReconcile` returns nil after one `Get`, the
`Status` of the snapshot passed in is still nil, and
`GetVolumeSnapshotContentForVolumeSnapshot` ends in a nil pointer dereference without fetching
any content. -/
theorem GetVolumeSnapshotContentForVolumeSnapshot_dereferences_stale_status :
    (exampleSnapshot none).Status = none ∧
    WaitForVolumesnapshotReconcile (exampleSnapshot none) promptClient (5 * Second) 1 World.init
      = some (none, ⟨1, 0, [.getVolumeSnapshot "ns" "snap"]⟩) ∧
    ∀ fuel, GetVolumeSnapshotContentForVolumeSnapshot (exampleSnapshot none) promptClient
        (fuel + 1) World.init
      = some (.panicked, ⟨1, 0, [.getVolumeSnapshot "ns" "snap"]⟩) := by
  refine ⟨rfl, by decide, ?_⟩
  intro fuel
  have hwait : WaitForVolumesnapshotReconcile (exampleSnapshot none) promptClient (5 * Second)
      (fuel + 1) World.init = some (none, ⟨1, 0, [.getVolumeSnapshot "ns" "snap"]⟩) :=
    wait_immediate (exampleSnapshot none) promptClient (5 * Second) fuel World.init
      (exampleSnapshot (some boundStatus)) rfl (by decide)
  rw [GetVolumeSnapshotContentForVolumeSnapshot, hwait]
  rfl

/-! ## Pods using a claim -/

theorem appendPerVolume_eq (pvcName : String) (p : Pod) (vols : List Volume) :
    ∀ acc, appendPerVolume pvcName p acc vols
      = acc ++ List.replicate (vols.countP (volumeUsesClaim pvcName)) p := by
  induction vols with
  | nil => intro acc; simp [appendPerVolume]
  | cons v rest ih =>
    intro acc
    by_cases hv : volumeUsesClaim pvcName v = true
    · simp [appendPerVolume, hv, ih, List.countP_cons, List.replicate_succ]
    · simp [appendPerVolume, hv, ih, List.countP_cons]

theorem mem_appendPerPod (pvcName : String) (items : List Pod) :
    ∀ (acc : List Pod) (p : Pod), p ∈ appendPerPod pvcName acc items →
      p ∈ acc ∨ (p ∈ items ∧ ∃ v ∈ p.Spec.Volumes, volumeUsesClaim pvcName v = true) := by
  induction items with
  | nil => intro acc p h; exact Or.inl (by simpa [appendPerPod] using h)
  | cons q rest ih =>
    intro acc p h
    rw [appendPerPod, appendPerVolume_eq] at h
    rcases ih _ p h with hacc | ⟨hrest, hv⟩
    · rcases List.mem_append.1 hacc with h1 | h2
      · exact Or.inl h1
      · obtain ⟨hne, hpq⟩ := List.mem_replicate.1 h2
        subst hpq
        refine Or.inr ⟨List.mem_cons_self _ _, ?_⟩
        have hpos : 0 < p.Spec.Volumes.countP (volumeUsesClaim pvcName) :=
          Nat.pos_of_ne_zero hne
        obtain ⟨v, hv, hp⟩ := List.countP_pos_iff.1 hpos
        exact ⟨v, hv, hp⟩
    · exact Or.inr ⟨List.mem_cons_of_mem _ hrest, hv⟩

theorem firstVolumeName_of_exists (pvcName : String) (notFound : Error) (vols : List Volume)
    (h : ∃ v ∈ vols, volumeUsesClaim pvcName v = true) :
    ∃ v, vols.find? (volumeUsesClaim pvcName) = some v ∧
      firstVolumeName pvcName notFound vols = (v.Name, none) := by
  induction vols with
  | nil => simp at h
  | cons v rest ih =>
    by_cases hv : volumeUsesClaim pvcName v = true
    · exact ⟨v, by simp [List.find?_cons, hv], by simp [firstVolumeName, hv]⟩
    · obtain ⟨u, hu, hp⟩ := h
      have hrest : ∃ v ∈ rest, volumeUsesClaim pvcName v = true := by
        rcases List.mem_cons.1 hu with rfl | hmem
        · exact absurd hp hv
        · exact ⟨u, hmem, hp⟩
      obtain ⟨x, hx, hf⟩ := ih hrest
      exact ⟨x, by simp [List.find?_cons, hv, hx], by simp [firstVolumeName, hv, hf]⟩

theorem resticLoop_no_error (pvcName : String) (pods : List Pod)
    (h : ∀ p ∈ pods, (GetPodVolumeNameForPVC p pvcName).2 = none) :
    (resticLoop pvcName pods).2 = none := by
  induction pods with
  | nil => rfl
  | cons p rest ih =>
    have hp := h p (List.mem_cons_self _ _)
    have hrest := ih (fun q hq => h q (List.mem_cons_of_mem _ hq))
    unfold resticLoop
    cases hg : GetPodVolumeNameForPVC p pvcName with
    | mk volName err =>
      rw [hg] at hp
      simp only at hp
      subst hp
      by_cases hlen : (GetPodVolumesUsingRestic p).length > 0
      · by_cases hc : Contains (GetPodVolumesUsingRestic p) volName = true
        · simp [hlen, hc]
        · simp [hlen, hc, hrest]
      · simp [hlen, hrest]

theorem getPods_volume_name (pvcNamespace pvcName : String) (podClient : PodsGetter)
    (pods : List Pod) (h : (GetPodsUsingPVC pvcNamespace pvcName podClient).1 = some pods) :
    ∀ p ∈ pods, ∃ v, p.Spec.Volumes.find? (volumeUsesClaim pvcName) = some v ∧
      GetPodVolumeNameForPVC p pvcName = (v.Name, none) := by
  intro p hp
  unfold GetPodsUsingPVC at h
  cases hl : podClient pvcNamespace with
  | error e => simp [hl] at h
  | ok items =>
    simp only [hl, Option.some.injEq] at h
    subst h
    rcases mem_appendPerPod pvcName items [] p hp with hnil | ⟨-, hv⟩
    · simp at hnil
    · exact firstVolumeName_of_exists pvcName _ p.Spec.Volumes hv

theorem mem_appendPerPod_of_uses (pvcName : String) (items : List Pod) :
    ∀ (acc : List Pod) (p : Pod),
      (p ∈ acc ∨ (p ∈ items ∧ ∃ v ∈ p.Spec.Volumes, volumeUsesClaim pvcName v = true)) →
      p ∈ appendPerPod pvcName acc items := by
  induction items with
  | nil =>
    intro acc p h
    rcases h with h | ⟨h, -⟩
    · simpa [appendPerPod] using h
    · simp at h
  | cons q rest ih =>
    intro acc p h
    rw [appendPerPod, appendPerVolume_eq]
    apply ih
    rcases h with h | ⟨h, v, hv, hp⟩
    · exact Or.inl (List.mem_append_left _ h)
    · rcases List.mem_cons.1 h with rfl | hrest
      · refine Or.inl (List.mem_append_right _ (List.mem_replicate.2 ⟨?_, rfl⟩))
        exact Nat.pos_iff_ne_zero.1 (List.countP_pos_iff.2 ⟨v, hv, hp⟩)
      · exact Or.inr ⟨hrest, v, hv, hp⟩

theorem resticLoop_true_iff (pvcName : String) (pods : List Pod)
    (h : ∀ p ∈ pods, (GetPodVolumeNameForPVC p pvcName).2 = none) :
    (resticLoop pvcName pods).1 = true ↔
      ∃ p ∈ pods, Contains (GetPodVolumesUsingRestic p) (GetPodVolumeNameForPVC p pvcName).1
        = true := by
  induction pods with
  | nil => simp [resticLoop]
  | cons p rest ih =>
    have hp := h p (List.mem_cons_self _ _)
    have hrest := ih (fun q hq => h q (List.mem_cons_of_mem _ hq))
    unfold resticLoop
    cases hg : GetPodVolumeNameForPVC p pvcName with
    | mk volName err =>
      rw [hg] at hp
      simp only at hp
      subst hp
      by_cases hlen : (GetPodVolumesUsingRestic p).length > 0
      · by_cases hc : Contains (GetPodVolumesUsingRestic p) volName = true
        · simp [hlen, hc, hg]
        · simp [hlen, hc, hg, hrest]
      · have hnil : GetPodVolumesUsingRestic p = [] := by
          cases hv : GetPodVolumesUsingRestic p with
          | nil => rfl
          | cons a l => simp [hv] at hlen
        simp [hnil, hrest, Contains]

/-- What the code decides: some pod of the listing uses the claim and the name of the first
of its volumes that references the claim is an entry of its restic annotation. -/
theorem IsPVCBackedUpByRestic_true_iff_first_volume (pvcNamespace pvcName : String)
    (podClient : PodsGetter) (items : List Pod) (hl : podClient pvcNamespace = .ok items) :
    (IsPVCBackedUpByRestic pvcNamespace pvcName podClient).1 = true ↔
      ∃ p ∈ items, ∃ v, p.Spec.Volumes.find? (volumeUsesClaim pvcName) = some v ∧
        v.Name ∈ GetPodVolumesUsingRestic p := by
  have hpods : (GetPodsUsingPVC pvcNamespace pvcName podClient).1
      = some (appendPerPod pvcName [] items) := by
    simp [GetPodsUsingPVC, hl]
  have hnames := getPods_volume_name pvcNamespace pvcName podClient _ hpods
  have hloop := resticLoop_true_iff pvcName (appendPerPod pvcName [] items)
    (fun p hp => by
      obtain ⟨v, -, hv⟩ := hnames p hp
      rw [hv])
  have hres : (IsPVCBackedUpByRestic pvcNamespace pvcName podClient).1
      = (resticLoop pvcName (appendPerPod pvcName [] items)).1 := by
    simp [IsPVCBackedUpByRestic, GetPodsUsingPVC, hl]
  rw [hres, hloop]
  constructor
  · rintro ⟨p, hp, hc⟩
    obtain ⟨v, hfind, hv⟩ := hnames p hp
    rcases mem_appendPerPod pvcName items [] p hp with hnil | ⟨hitem, -⟩
    · simp at hnil
    · refine ⟨p, hitem, v, hfind, ?_⟩
      rw [hv] at hc
      exact (Contains_iff _ _).1 hc
  · rintro ⟨p, hitem, v, hfind, hmem⟩
    have huses : ∃ u ∈ p.Spec.Volumes, volumeUsesClaim pvcName u = true :=
      ⟨v, List.mem_of_find?_eq_some hfind, List.find?_some hfind⟩
    have hp : p ∈ appendPerPod pvcName [] items :=
      mem_appendPerPod_of_uses pvcName items [] p (Or.inr ⟨hitem, huses⟩)
    obtain ⟨v2, hfind2, hv2⟩ := hnames p hp
    rw [hfind] at hfind2
    cases hfind2
    refine ⟨p, hp, ?_⟩
    rw [hv2]
    exact (Contains_iff _ _).2 hmem

/-- What the code returns: every pod of the listing, once for each of its volumes that
references the claim. -/
theorem appendPerPod_eq (pvcName : String) (items : List Pod) :
    ∀ acc, appendPerPod pvcName acc items
      = acc ++ (items.map (fun p =>
          List.replicate (p.Spec.Volumes.countP (volumeUsesClaim pvcName)) p)).flatten := by
  induction items with
  | nil => intro acc; simp [appendPerPod]
  | cons q rest ih =>
    intro acc
    rw [appendPerPod, appendPerVolume_eq, ih]
    simp

/-- C10: `IsPVCBackedUpByRestic` returns a non-nil error exactly when listing the pods of the
namespace fails, and then the error is the listing error with a stack; every pod returned by
`GetPodsUsingPVC` has a first volume referencing the claim, and `GetPodVolumeNameForPVC`
returns the name of that volume with a nil error. -/
theorem IsPVCBackedUpByRestic_error_iff_list_fails (pvcNamespace pvcName : String)
    (podClient : PodsGetter) :
    ((IsPVCBackedUpByRestic pvcNamespace pvcName podClient).2 ≠ none
      ↔ ∃ e, podClient pvcNamespace = .error e) ∧
    (∀ e, podClient pvcNamespace = .error e →
      IsPVCBackedUpByRestic pvcNamespace pvcName podClient = (false, some (.withStack e))) ∧
    (∀ pods, (GetPodsUsingPVC pvcNamespace pvcName podClient).1 = some pods →
      ∀ p ∈ pods, ∃ v, p.Spec.Volumes.find? (volumeUsesClaim pvcName) = some v ∧
        GetPodVolumeNameForPVC p pvcName = (v.Name, none)) := by
  refine ⟨?_, ?_, getPods_volume_name pvcNamespace pvcName podClient⟩
  · cases hl : podClient pvcNamespace with
    | error e => simp [IsPVCBackedUpByRestic, GetPodsUsingPVC, hl]
    | ok items =>
      have hpods : (GetPodsUsingPVC pvcNamespace pvcName podClient).1
          = some (appendPerPod pvcName [] items) := by
        simp [GetPodsUsingPVC, hl]
      have hnames := getPods_volume_name pvcNamespace pvcName podClient _ hpods
      have hnone := resticLoop_no_error pvcName (appendPerPod pvcName [] items)
        (fun p hp => by
          obtain ⟨v, -, hv⟩ := hnames p hp
          rw [hv])
      simp [IsPVCBackedUpByRestic, GetPodsUsingPVC, hl, hnone]
  · intro e he
    simp [IsPVCBackedUpByRestic, GetPodsUsingPVC, he]

theorem IsPVCBackedUpByRestic_error_iff_list_fails_witness :
    IsPVCBackedUpByRestic "ns" "data" listFails
        = (false, some (.withStack (.api "pods is forbidden"))) ∧
      (IsPVCBackedUpByRestic "ns" "data" listOneVolume).2 = none :=
  ⟨(IsPVCBackedUpByRestic_error_iff_list_fails "ns" "data" listFails).2.1 _ rfl,
    by
      by_contra hne
      obtain ⟨e, he⟩ :=
        (IsPVCBackedUpByRestic_error_iff_list_fails "ns" "data" listOneVolume).1.1 hne
      simp [listOneVolume] at he⟩

/-- On a listing in which no pod has more than one volume on the claim, the pods returned
are the listing filtered to the pods that use the claim. -/
theorem GetPodsUsingPVC_eq_filter_of_single_use (pvcNamespace pvcName : String)
    (podClient : PodsGetter) (items : List Pod) (hl : podClient pvcNamespace = .ok items)
    (hsingle : ∀ p ∈ items, p.Spec.Volumes.countP (volumeUsesClaim pvcName) ≤ 1) :
    GetPodsUsingPVC pvcNamespace pvcName podClient
      = (some (items.filter (fun p => p.Spec.Volumes.any (volumeUsesClaim pvcName))), none) := by
  have hflat : ∀ l : List Pod,
      (∀ p ∈ l, p.Spec.Volumes.countP (volumeUsesClaim pvcName) ≤ 1) →
      (l.map (fun p =>
          List.replicate (p.Spec.Volumes.countP (volumeUsesClaim pvcName)) p)).flatten
        = l.filter (fun p => p.Spec.Volumes.any (volumeUsesClaim pvcName)) := by
    intro l
    induction l with
    | nil => intro _; rfl
    | cons q rest ih =>
      intro h
      have hq := h q (List.mem_cons_self _ _)
      have hrest := ih (fun p hp => h p (List.mem_cons_of_mem _ hp))
      by_cases hany : q.Spec.Volumes.any (volumeUsesClaim pvcName) = true
      · have hpos : 0 < q.Spec.Volumes.countP (volumeUsesClaim pvcName) := by
          obtain ⟨v, hv, hp⟩ := List.any_eq_true.1 hany
          exact List.countP_pos_iff.2 ⟨v, hv, hp⟩
        have hone : q.Spec.Volumes.countP (volumeUsesClaim pvcName) = 1 := by omega
        simp [hone, hany, hrest]
      · have hzero : q.Spec.Volumes.countP (volumeUsesClaim pvcName) = 0 := by
          by_contra hne
          obtain ⟨v, hv, hp⟩ := List.countP_pos_iff.1 (Nat.pos_of_ne_zero hne)
          exact hany (List.any_eq_true.2 ⟨v, hv, hp⟩)
        simp [hzero, hany, hrest]
  simp only [GetPodsUsingPVC, hl, appendPerPod_eq, List.nil_append]
  rw [hflat items hsingle]

/-! ## Pods that mount one claim through several volumes -/

/-- C8 (the code at a pod with two volumes on the claim): the listing holds one pod, which uses
the claim "data" through two volumes; filtering the listing gives that pod once, and
`GetPodsUsingPVC` returns it twice. -/
theorem GetPodsUsingPVC_repeats_pod_with_two_volumes :
    [podWithTwoVolumes].filter (fun p => p.Spec.Volumes.any (volumeUsesClaim "data"))
        = [podWithTwoVolumes] ∧
      GetPodsUsingPVC "ns" "data" listTwoVolumes
        = (some [podWithTwoVolumes, podWithTwoVolumes], none) := by
  decide

/-- C7 (the code at a pod with two volumes on the claim): the pod of the listing has the volume
"b", which references the claim "data" and is an entry of the pod's restic annotation, and
`IsPVCBackedUpByRestic` returns false, because only the first volume on the claim, "a", is
looked up in the annotation. -/
theorem IsPVCBackedUpByRestic_misses_second_volume :
    (∃ p ∈ [podWithTwoVolumes], ∃ v ∈ p.Spec.Volumes,
        volumeUsesClaim "data" v = true ∧ v.Name ∈ GetPodVolumesUsingRestic p) ∧
      GetPodVolumeNameForPVC podWithTwoVolumes "data" = ("a", none) ∧
      IsPVCBackedUpByRestic "ns" "data" listTwoVolumes = (false, none) := by
  refine ⟨⟨podWithTwoVolumes, List.mem_singleton.2 rfl, claimVolume "b" "data", ?_, ?_, ?_⟩,
    ?_, ?_⟩ <;> decide

end VeleroCSI
